import Mathlib

/-!
Verification of the simulation core of the `red` traffic simulator.

The Rust sources under `src/simulation/src/` are shallowly embedded below:
f32 values are modelled as exact rationals (ℚ), arena indices (`Id<T>`) as
natural numbers, `HashMap`s as association lists or lookup functions, and the
bevy ECS queries as lists of vehicles indexed by position (the `Entity` of a
vehicle is its index in the list).  Fallible operations return `Option`.
-/

-- Batteries marks the Rat field operations irreducible, which blocks kernel
-- evaluation inside `decide`; restore default reducibility for this file.
attribute [local semireducible] Rat.add Rat.sub Rat.mul Rat.inv Rat.ofScientific

set_option maxRecDepth 40000

namespace Red

/-- Fuelled bisection on naturals: finds the greatest `m` with `m * m ≤ n`.
Structural recursion on the fuel keeps it kernel-computable (the library
`Nat.sqrt` is defined by well-founded recursion, which the kernel cannot
unfold). -/
def natSqrtGo (n : ℕ) : ℕ → ℕ → ℕ → ℕ
  | lo, _, 0 => lo
  | lo, hi, fuel + 1 =>
    if hi ≤ lo then lo
    else
      let mid := (lo + hi + 1) / 2
      if mid * mid ≤ n then natSqrtGo n mid hi fuel else natSqrtGo n lo (mid - 1) fuel

/-- Integer square root (rounded down), kernel-computable. -/
def natSqrt (n : ℕ) : ℕ := natSqrtGo n 0 n (n + 2)

/-- Rational square root model for `f32::sqrt`: exact on perfect squares,
which covers every concrete value this development evaluates it at. -/
def ratSqrt (q : ℚ) : ℚ := (natSqrt q.num.toNat : ℚ) / (natSqrt q.den : ℚ)

/-- Largest finite f32 value, `f32::MAX = (2^24 - 1) * 2^104`, exactly. -/
def f32MAX : ℚ := 340282366920938463463374607431768211456 - 20282409603651670423947251286016

/-- Sentinel `u32::MAX` used by gap acceptance for "no arrival order". -/
def u32MAX : ℕ := 4294967295

/-- Three-component vector of rationals, modelling `glam::Vec3`. -/
structure Vec3 where
  x : ℚ
  y : ℚ
  z : ℚ
deriving DecidableEq, Repr

def Vec3.zero : Vec3 := ⟨0, 0, 0⟩

/-- Cross product, as in `glam::Vec3::cross`. -/
def Vec3.cross (a b : Vec3) : Vec3 :=
  ⟨a.y * b.z - a.z * b.y, a.z * b.x - a.x * b.z, a.x * b.y - a.y * b.x⟩

/-- Dot product, as in `glam::Vec3::dot`. -/
def Vec3.dot (a b : Vec3) : ℚ := a.x * b.x + a.y * b.y + a.z * b.z

/-- Squared Euclidean distance between two points. -/
def Vec3.dist2 (a b : Vec3) : ℚ :=
  (a.x - b.x) * (a.x - b.x) + (a.y - b.y) * (a.y - b.y) + (a.z - b.z) * (a.z - b.z)

/-- Euclidean distance, modelling `glam::Vec3::distance`. -/
def Vec3.dist (a b : Vec3) : ℚ := ratSqrt (Vec3.dist2 a b)

/-- Turn classification of a segment, from `yielding.rs` together with the
roundabout variants used by `road.rs` and `gap.rs` (the snapshot of
`yielding.rs` in the repository predates the roundabout work, so the three
roundabout constructors are taken from their uses in `road.rs`). -/
inductive TurnType where
  | Straight : TurnType
  | Right : ℚ → TurnType
  | Left : ℚ → TurnType
  | RoundaboutEntry : TurnType
  | RoundaboutCircle : TurnType
  | RoundaboutExit : TurnType
deriving DecidableEq, Repr

/-- Signed cross magnitude of a turn, `TurnType::cross` in `yielding.rs`.
The source matches only the first three constructors; the roundabout
variants never reach the right-of-way comparison, and are mapped to 0. -/
def TurnType.cross : TurnType → ℚ
  | TurnType.Straight => 0
  | TurnType.Right c => c
  | TurnType.Left c => c
  | _ => 0

/-- Yield policy of an intersection.  `yielding.rs` in the snapshot defines
only `RightOfWay`; the `Roundabout` member is referenced by `road.rs` and
`gap.rs` and is therefore included. -/
inductive YieldResolver where
  | RightOfWay : YieldResolver
  | Roundabout : YieldResolver
deriving DecidableEq, Repr

/-- Threshold for deadlock detection, `DEADLOCK_THRESHOLD` in `yielding.rs`. -/
def DEADLOCK_THRESHOLD : ℚ := 1/2

/-- The right-of-way priority predicate, translated from
`YieldResolver::has_priority` in `yielding.rs`. -/
def rightOfWayPriority (my_turn_type : TurnType) (my_direction : Vec3)
    (my_arrival_order : ℕ) (my_waiting_time : ℚ)
    (their_turn_type : TurnType) (their_direction : Vec3)
    (their_arrival_order : ℕ) (their_waiting_time : ℚ) : Bool :=
  if their_arrival_order = u32MAX ∧ my_arrival_order ≠ u32MAX then true
  else if my_arrival_order = u32MAX ∧ their_arrival_order ≠ u32MAX then false
  else if my_waiting_time > DEADLOCK_THRESHOLD ∧ their_waiting_time > DEADLOCK_THRESHOLD then
    my_arrival_order < their_arrival_order
  else
    let direction_cross := (my_direction.cross their_direction).z
    if direction_cross < -(3/10) then true
    else if direction_cross > 3/10 then false
    else
      let my_path := my_turn_type.cross
      let their_path := their_turn_type.cross
      if |my_path - their_path| > 1/10 then my_path < their_path
      else my_arrival_order < their_arrival_order

/-- Priority predicate of a yield policy.  The `RightOfWay` branch is the
translation of `yielding.rs`.  Modelled from the spec: the snapshot of
`yielding.rs` has no `Roundabout` branch although `road.rs` and `gap.rs` use
that policy; per the spec an entering vehicle always yields to circle
traffic, so the model never claims priority there.  No claim below depends
on the `Roundabout` branch. -/
def YieldResolver.has_priority (r : YieldResolver) (my_turn_type : TurnType)
    (my_direction : Vec3) (my_arrival_order : ℕ) (my_waiting_time : ℚ)
    (their_turn_type : TurnType) (their_direction : Vec3)
    (their_arrival_order : ℕ) (their_waiting_time : ℚ) : Bool :=
  match r with
  | YieldResolver.RightOfWay =>
    rightOfWayPriority my_turn_type my_direction my_arrival_order my_waiting_time
      their_turn_type their_direction their_arrival_order their_waiting_time
  | YieldResolver.Roundabout => false

/-- Per-vehicle IDM parameters, from `idm.rs`. -/
structure Idm where
  aggression : ℚ
  desired_time_headway : ℚ
  min_spacing : ℚ
  max_acceleration : ℚ
  comfortable_deceleration : ℚ
deriving DecidableEq, Repr

/-- Per-vehicle gap-acceptance state, from `gap.rs`. -/
structure GapAcceptance where
  min_gap : ℚ
  waiting_time : Option ℚ
  cleared_to_go : Bool
  arrival_order : Option ℕ
deriving DecidableEq, Repr

/-- A simulated car, from `vehicle.rs`.  `segment`, `destination` and the
route entries are arena indices; `gap` and `idm` are the driver state. -/
structure Vehicle where
  speed : ℚ
  segment : ℕ
  progress : ℚ
  destination : ℕ
  route : List ℕ
  idm : Idm
  gap : GapAcceptance
  length : ℚ
  width : ℚ
deriving DecidableEq, Repr

/-- Geometry of a segment, from `road.rs`. -/
inductive SegmentGeometry where
  | Straight : SegmentGeometry
  | Curved : Vec3 → ℚ → Bool → SegmentGeometry
deriving DecidableEq, Repr

/-- A node of the road graph, from `road.rs`.  `fromNode`/`toNode` lists hold
segment indices. -/
structure Node where
  position : Vec3
  incoming : List ℕ
  outgoing : List ℕ
  is_spawn : Bool
  is_despawn : Bool
  yield_resolver : Option YieldResolver
deriving DecidableEq, Repr

/-- A directed road segment, from `road.rs`.  The Rust fields `from` and `to`
are Lean keywords and are rendered `fromNode` and `toNode`. -/
structure Segment where
  fromNode : ℕ
  toNode : ℕ
  speed_limit : ℚ
  geometry : SegmentGeometry
  turn_type : TurnType
  length : ℚ
deriving DecidableEq, Repr

/-- An expanded intersection, from `road.rs`.  The `conflicts` and
`entry_directions` hash maps are modelled as association lists. -/
structure Intersection where
  position : Vec3
  incoming : List ℕ
  outgoing : List ℕ
  edge_nodes : List ℕ
  conflicts : List (ℕ × List ℕ)
  yield_resolver : YieldResolver
  entry_directions : List (ℕ × Vec3)
  arrival_counter : ℕ
deriving DecidableEq, Repr

/-- The road network, from `road.rs`; each arena is a list indexed by id. -/
structure Road where
  nodes : List Node
  segments : List Segment
  intersections : List Intersection
deriving DecidableEq, Repr

/-- Association-list lookup, modelling `HashMap::get`. -/
def alistGet {α : Type} (l : List (ℕ × α)) (k : ℕ) : Option α :=
  (l.find? (fun p => p.1 == k)).map (fun p => p.2)

def dummyNode : Node := ⟨Vec3.zero, [], [], false, false, none⟩

def dummySegment : Segment := ⟨0, 0, 0, SegmentGeometry.Straight, TurnType.Straight, 0⟩

/-- Arena lookup for nodes.  The Rust `Arena::get` unwraps and aborts on a
bad id; ids used by the simulation are always valid, so the default is
unreachable there. -/
def Road.getNode (r : Road) (i : ℕ) : Node := r.nodes.getD i dummyNode

/-- Arena lookup for segments; see `Road.getNode` on the default. -/
def Road.getSegment (r : Road) (i : ℕ) : Segment := r.segments.getD i dummySegment

/-- Entry of the per-segment occupancy index, from `occupancy.rs`; `vehicle`
is the entity (the index of the vehicle in the world's vehicle list). -/
structure Occupant where
  progress : ℚ
  vehicle : ℕ
  speed : ℚ
  segment : ℕ
deriving DecidableEq, Repr

/-- Stable insertion into a list sorted ascending by `progress`; together
with `occupantsOn` this models the per-bucket stable
`sort_by(partial_cmp(progress))` of `update_occupancy`. -/
def insertOccupant (o : Occupant) : List Occupant → List Occupant
  | [] => [o]
  | x :: xs => if x.progress ≤ o.progress then x :: insertOccupant o xs else o :: x :: xs

/-- Collect the occupants of segment `seg` in vehicle-list order, numbering
entities from `e`. -/
def occupantsAux (seg : ℕ) : ℕ → List Vehicle → List Occupant
  | _, [] => []
  | e, v :: rest =>
    if v.segment = seg then
      ⟨v.progress, e, v.speed, v.segment⟩ :: occupantsAux seg (e + 1) rest
    else occupantsAux seg (e + 1) rest

/-- The occupancy bucket of a segment: vehicles on it, sorted ascending by
progress, from `update_occupancy` in `occupancy.rs`.  A segment with no
vehicles yields `[]`, which behaves exactly like the absent hash-map entry
in the source. -/
def occupantsOn (vehicles : List Vehicle) (seg : ℕ) : List Occupant :=
  (occupantsAux seg 0 vehicles).foldl (fun acc o => insertOccupant o acc) []

/-- Euclidean distance between a segment's endpoint nodes; this is the
`segment_length` that `SegmentOccupancy::find_next` computes from
`from.position.distance(to.position)` (note: not the stored `length`). -/
def elen (road : Road) (s : ℕ) : ℚ :=
  Vec3.dist (road.getNode (road.getSegment s).fromNode).position
    (road.getNode (road.getSegment s).toNode).position

/-- The filter of the next-ahead search: a strictly-ahead occupant that is
not the searching vehicle itself. -/
def aheadOf (progress : ℚ) (entity : ℕ) (o : Occupant) : Bool :=
  decide (o.progress > progress) && decide (o.vehicle ≠ entity)

/-- Loop body of `SegmentOccupancy::find_next`, with the Rust
`max_iteration` counter as structural fuel.  The source decrements the
counter and returns `None` when it reaches zero before following the first
outgoing segment of the current segment's end node; the fuel-zero branch is
unreachable from the initial value 10. -/
def findNextGo (road : Road) (occ : ℕ → List Occupant) (entity : ℕ) (selfProgress : ℚ) :
    ℕ → ℕ → ℚ → ℚ → Bool → Option (Occupant × ℚ)
  | 0, _, _, _, _ => none
  | fuel + 1, segment, progress, accumulated, first =>
    let segment_length := elen road segment
    match (occ segment).find? (aheadOf progress entity) with
    | some o =>
      some (o, if first then (o.progress - selfProgress) * segment_length
               else accumulated + o.progress * segment_length)
    | none =>
      let accumulated := if first then accumulated + (1 - selfProgress) * segment_length
                         else accumulated + segment_length
      if fuel = 0 then none
      else
        match (road.getNode (road.getSegment segment).toNode).outgoing with
        | [] => none
        | next :: _ =>
          findNextGo road occ entity selfProgress fuel next (-f32MAX) accumulated false

/-- `SegmentOccupancy::find_next`: next occupant ahead of the vehicle within
a 10-segment horizon, and the distance to it. -/
def find_next (road : Road) (occ : ℕ → List Occupant) (entity : ℕ) (v : Vehicle) :
    Option (Occupant × ℚ) :=
  findNextGo road occ entity v.progress 10 v.segment v.progress 0 true

/-- Exit cause of the next-ahead search, used to instrument `find_next`. -/
inductive SearchExit where
  | found : SearchExit
  | horizon : SearchExit
  | deadEnd : SearchExit
deriving DecidableEq, Repr

/-- Instrumented copy of `findNextGo` that additionally reports how many
segments the traversal examined and why it stopped. -/
def findNextTraceGo (road : Road) (occ : ℕ → List Occupant) (entity : ℕ) (selfProgress : ℚ) :
    ℕ → ℕ → ℚ → ℚ → Bool → Option (Occupant × ℚ) × ℕ × SearchExit
  | 0, _, _, _, _ => (none, 0, SearchExit.horizon)
  | fuel + 1, segment, progress, accumulated, first =>
    let segment_length := elen road segment
    match (occ segment).find? (aheadOf progress entity) with
    | some o =>
      (some (o, if first then (o.progress - selfProgress) * segment_length
                else accumulated + o.progress * segment_length), 1, SearchExit.found)
    | none =>
      let accumulated := if first then accumulated + (1 - selfProgress) * segment_length
                         else accumulated + segment_length
      if fuel = 0 then (none, 1, SearchExit.horizon)
      else
        match (road.getNode (road.getSegment segment).toNode).outgoing with
        | [] => (none, 1, SearchExit.deadEnd)
        | next :: _ =>
          let r := findNextTraceGo road occ entity selfProgress fuel next (-f32MAX) accumulated false
          (r.1, r.2.1 + 1, r.2.2)

/-- Instrumented `find_next`; same traversal, plus segment count and exit
cause. -/
def findNextTrace (road : Road) (occ : ℕ → List Occupant) (entity : ℕ) (v : Vehicle) :
    Option (Occupant × ℚ) × ℕ × SearchExit :=
  findNextTraceGo road occ entity v.progress 10 v.segment v.progress 0 true

/-- First outgoing segment at the end node of segment `seg` — the hop the
next-ahead search follows (`to_node.outgoing.first()`). -/
def nextSeg (road : Road) (seg : ℕ) : Option ℕ :=
  match (road.getNode (road.getSegment seg).toNode).outgoing with
  | [] => none
  | n :: _ => some n

/-- The segment reached from `seg` after `k` hops along first-outgoing
edges. -/
def chainFrom (road : Road) : ℕ → ℕ → Option ℕ
  | seg, 0 => some seg
  | seg, k + 1 =>
    match nextSeg road seg with
    | some n => chainFrom road n k
    | none => none

/-- Sum of the endpoint-distance lengths of the first `k` segments of the
hop chain starting at `seg`. -/
def chainLens (road : Road) : ℕ → ℕ → ℚ
  | _, 0 => 0
  | seg, k + 1 =>
    match nextSeg road seg with
    | some n => elen road seg + chainLens road n k
    | none => elen road seg

/-- Insert with overwrite into an association list (first match wins on
lookup, so prepending models `HashMap::insert`). -/
def alistInsert {α : Type} (l : List (ℕ × α)) (k : ℕ) (v : α) : List (ℕ × α) :=
  (k, v) :: l

/-- Backtracking loop of `next_segment_toward`: walk `came_from` links from
the destination to the start, collecting the route.  The source loops
unconditionally (`came_from.get.unwrap()`); for a BFS tree the walk reaches
the start node, so the fuel-exhausted and missing-link branches are
unreachable.  Modelled from the spec: the snapshot of `pathfinding.rs`
returns only the first segment, while `vehicle.rs` consumes a
`(segment, route)` pair; the route accumulation follows §4.4 of the spec
(the ordered list of segment ids from the current node to the
destination). -/
def backtrackGo (road : Road) (current : ℕ) (came_from : List (ℕ × ℕ)) :
    ℕ → ℕ → List ℕ → Option (ℕ × List ℕ)
  | 0, _, _ => none
  | fuel + 1, node, acc =>
    match alistGet came_from node with
    | none => none
    | some seg_id =>
      let seg := road.getSegment seg_id
      if seg.fromNode = current then some (seg_id, seg_id :: acc)
      else backtrackGo road current came_from fuel seg.fromNode (seg_id :: acc)

/-- One BFS expansion: push every unvisited neighbour of `node`, recording
the segment used to reach it (`came_from.entry(..).or_insert_with`). -/
def bfsExpand (road : Road) (node : ℕ) :
    List ℕ → List (ℕ × ℕ) → List ℕ → List ℕ × List (ℕ × ℕ)
  | queue, came_from, [] => (queue, came_from)
  | queue, came_from, seg_id :: rest =>
    let neighbor := (road.getSegment seg_id).toNode
    match alistGet came_from neighbor with
    | some _ => bfsExpand road node queue came_from rest
    | none => bfsExpand road node (queue ++ [neighbor]) (alistInsert came_from neighbor seg_id) rest

/-- BFS main loop of `next_segment_toward`.  Each node enters the queue at
most once after the initial seeding, so the fuel (number of nodes plus
number of segments plus one) bounds the iteration count; the fuel-zero
branch is unreachable. -/
def bfsLoop (road : Road) (current destination : ℕ) :
    ℕ → List ℕ → List (ℕ × ℕ) → Option (ℕ × List ℕ)
  | 0, _, _ => none
  | fuel + 1, queue, came_from =>
    match queue with
    | [] => none
    | node_id :: rest =>
      if node_id = destination then
        backtrackGo road current came_from (road.segments.length + 1) destination []
      else
        let p := bfsExpand road node_id rest came_from (road.getNode node_id).outgoing
        bfsLoop road current destination fuel p.1 p.2

/-- Initial seeding of the BFS queue from the outgoing segments of the start
node; the source inserts unconditionally (overwriting duplicates). -/
def bfsSeed (road : Road) : List ℕ → List ℕ → List (ℕ × ℕ) → List ℕ × List (ℕ × ℕ)
  | [], queue, came_from => (queue, came_from)
  | seg_id :: rest, queue, came_from =>
    let neighbor := (road.getSegment seg_id).toNode
    bfsSeed road rest (queue ++ [neighbor]) (alistInsert came_from neighbor seg_id)

/-- `next_segment_toward` from `pathfinding.rs`: breadth-first search for the
first segment of a shortest-hop path, returning it together with the route
(see `backtrackGo` on the route part). -/
def next_segment_toward (road : Road) (current destination : ℕ) : Option (ℕ × List ℕ) :=
  if current = destination then none
  else
    let p := bfsSeed road (road.getNode current).outgoing [] []
    bfsLoop road current destination (road.nodes.length + road.segments.length + 1) p.1 p.2

/-- Snapshot row collected in phase 2 of `apply_gap_acceptance`:
`(entity, segment, next_segment, progress, speed, length, waiting_time,
arrival_order)`. -/
structure VehicleInfo where
  entity : ℕ
  segment : ℕ
  next : Option ℕ
  progress : ℚ
  speed : ℚ
  length : ℚ
  waiting_time : ℚ
  arrival_order : ℕ
deriving DecidableEq, Repr

/-- Phase 2 of `apply_gap_acceptance`: snapshot every vehicle, numbering
entities from `e`. -/
def vehicleInfo : ℕ → List Vehicle → List VehicleInfo
  | _, [] => []
  | e, v :: rest =>
    ⟨e, v.segment, v.route[1]?, v.progress, v.speed, v.length,
      v.gap.waiting_time.getD 0, v.gap.arrival_order.getD u32MAX⟩ :: vehicleInfo (e + 1) rest

/-- `MIN_SAFE_DISTANCE` from `gap.rs`. -/
def MIN_SAFE_DISTANCE : ℚ := 3

/-- Inner loop of phase 3 of `apply_gap_acceptance`: scan the snapshot and
narrow `actual_gap` (second component of the recursion state); a forced
`actual_gap = 0` breaks out of the scan as in the source. -/
def gapInfoLoop (road : Road) (inter : Intersection) (next_segment : ℕ) (entity : ℕ)
    (my_arrival_order : ℕ) (my_waiting_time : ℚ) (conflicts : List ℕ) :
    List VehicleInfo → ℚ → ℚ
  | [], g => g
  | info :: rest, g =>
    if info.entity = entity then
      gapInfoLoop road inter next_segment entity my_arrival_order my_waiting_time conflicts rest g
    else
      let my_turn := (road.getSegment next_segment).turn_type
      let other_turn := (road.getSegment info.segment).turn_type
      let dominated : Bool :=
        match inter.yield_resolver with
        | YieldResolver.Roundabout =>
          decide (my_turn = TurnType.RoundaboutEntry) &&
            decide (other_turn = TurnType.RoundaboutCircle)
        | _ => true
      if conflicts.contains info.segment && dominated then 0
      else
        match info.next with
        | some other_next =>
          if conflicts.contains other_next then
            let my_dir := (alistGet inter.entry_directions next_segment).getD Vec3.zero
            let their_turn := (road.getSegment other_next).turn_type
            let their_dir := (alistGet inter.entry_directions other_next).getD Vec3.zero
            if inter.yield_resolver.has_priority my_turn my_dir my_arrival_order
                my_waiting_time their_turn their_dir info.arrival_order info.waiting_time then
              gapInfoLoop road inter next_segment entity my_arrival_order my_waiting_time
                conflicts rest g
            else
              let seg := road.getSegment info.segment
              let distance_to_enter := max ((1 - info.progress) * seg.length - info.length / 2) 0
              if distance_to_enter < MIN_SAFE_DISTANCE then 0
              else
                gapInfoLoop road inter next_segment entity my_arrival_order my_waiting_time
                  conflicts rest (min g (distance_to_enter / max info.speed (1/10)))
          else
            gapInfoLoop road inter next_segment entity my_arrival_order my_waiting_time
              conflicts rest g
        | none =>
          gapInfoLoop road inter next_segment entity my_arrival_order my_waiting_time
            conflicts rest g

/-- Phase 3 of `apply_gap_acceptance` for a single vehicle with entity id
`entity`: compute `actual_gap` over all intersections containing the next
segment and update the gap state. -/
def gapPhase3Vehicle (road : Road) (dt : ℚ) (infos : List VehicleInfo) (entity : ℕ)
    (v : Vehicle) : Vehicle :=
  if v.progress > 1/2 then
    match v.route[1]? with
    | none => v
    | some next_segment =>
      let critical_time := v.gap.min_gap
      let my_arrival_order := v.gap.arrival_order.getD u32MAX
      let actual_gap := road.intersections.foldl
        (fun g inter =>
          if inter.incoming.contains next_segment then
            match alistGet inter.conflicts next_segment with
            | some conflicts =>
              gapInfoLoop road inter next_segment entity my_arrival_order
                (v.gap.waiting_time.getD 0) conflicts infos g
            | none => g
          else g) f32MAX
      if actual_gap < critical_time then
        { v with gap := { v.gap with
                          waiting_time := some (v.gap.waiting_time.getD 0 + dt)
                          cleared_to_go := false } }
      else
        { v with gap := { v.gap with cleared_to_go := true } }
  else v

/-- Phase 3 of `apply_gap_acceptance` over the whole vehicle list, numbering
entities from `e`. -/
def gapPhase3All (road : Road) (dt : ℚ) (infos : List VehicleInfo) :
    ℕ → List Vehicle → List Vehicle
  | _, [] => []
  | e, v :: rest =>
    gapPhase3Vehicle road dt infos e v :: gapPhase3All road dt infos (e + 1) rest

/-- Phase 1 of `apply_gap_acceptance` for one vehicle: a vehicle past half
of its segment with no arrival order yet is stamped with the counter of the
first intersection whose incoming list contains its next segment. -/
def gapPhase1Vehicle (road : Road) (v : Vehicle) : Road × Vehicle :=
  if v.progress > 1/2 then
    if v.gap.arrival_order.isSome then (road, v)
    else
      match v.route[1]? with
      | none => (road, v)
      | some next_segment =>
        match road.intersections.findIdx? (fun i => i.incoming.contains next_segment) with
        | none => (road, v)
        | some idx =>
          let inter := road.intersections.getD idx
            ⟨Vec3.zero, [], [], [], [], YieldResolver.RightOfWay, [], 0⟩
          let inter' := { inter with arrival_counter := inter.arrival_counter + 1 }
          ({ road with intersections := road.intersections.set idx inter' },
           { v with gap := { v.gap with arrival_order := some inter.arrival_counter } })
  else (road, v)

/-- Phase 1 of `apply_gap_acceptance` over the vehicle list, threading the
road (whose intersection arrival counters are incremented). -/
def gapPhase1 (road : Road) : List Vehicle → Road × List Vehicle
  | [] => (road, [])
  | v :: rest =>
    let p := gapPhase1Vehicle road v
    let q := gapPhase1 p.1 rest
    (q.1, p.2 :: q.2)

/-- `apply_gap_acceptance` from `gap.rs`: assign arrival orders, snapshot,
then run the gap decision for every vehicle. -/
def applyGapAcceptance (dt : ℚ) (road : Road) (vehicles : List Vehicle) :
    Road × List Vehicle :=
  let p := gapPhase1 road vehicles
  let infos := vehicleInfo 0 p.2
  (p.1, gapPhase3All p.1 dt infos 0 p.2)

/-- Linear interpolation, from `idm.rs`. -/
def lerp (a b t : ℚ) : ℚ := a + (b - a) * t

/-- `Idm::acceleration` from `idm.rs`: the Intelligent Driver Model
acceleration, clamped to `[-2 * comfortable_deceleration,
max_acceleration]`. -/
def Idm.acceleration (idm : Idm) (speed_limit speed gap delta_speed : ℚ) : ℚ :=
  let desired_speed := lerp (speed_limit * (4/5)) (speed_limit * (6/5)) idm.aggression
  let gap := max gap (1/100)
  let s_star := idm.min_spacing + speed * idm.desired_time_headway +
    (speed * delta_speed) /
      (2 * ratSqrt (idm.max_acceleration * idm.comfortable_deceleration))
  let raw := idm.max_acceleration *
    (1 - (speed / desired_speed)^4 - (s_star / gap)^2)
  min (max raw (-(idm.comfortable_deceleration * 2))) idm.max_acceleration

/-- One vehicle's step of `apply_idm` from `idm.rs` (the system iterates
over every vehicle without the `PlayerControlled` marker; the model's
vehicle lists contain only such vehicles).  The stop-line branch is selected
by `vehicle.gap.waiting_time.is_some()`. -/
def applyIdmVehicle (road : Road) (occ : ℕ → List Occupant) (dt : ℚ) (entity : ℕ)
    (v : Vehicle) : Vehicle :=
  let segment := road.getSegment v.segment
  let next_driver := find_next road occ entity v
  let distance_to_end := max ((1 - v.progress) * segment.length - v.length / 2) 0
  let gd : ℚ × ℚ :=
    match v.gap.waiting_time, next_driver with
    | some _, some (next_occupant, distance) =>
      let min_gap := min distance distance_to_end
      (min_gap, if min_gap = distance then v.speed - next_occupant.speed else v.speed)
    | some _, none => (distance_to_end, v.speed)
    | none, some (next_occupant, distance) => (distance, v.speed - next_occupant.speed)
    | none, none => (f32MAX, 0)
  let acceleration := v.idm.acceleration segment.speed_limit v.speed gd.1 gd.2
  { v with speed := max (v.speed + acceleration * dt) 0 }

/-- `apply_idm` over the vehicle list, numbering entities from `e`. -/
def applyIdmAll (road : Road) (occ : ℕ → List Occupant) (dt : ℚ) :
    ℕ → List Vehicle → List Vehicle
  | _, [] => []
  | e, v :: rest =>
    applyIdmVehicle road occ dt e v :: applyIdmAll road occ dt (e + 1) rest

/-- One vehicle's step of `move_and_despawn_vehicles` from `vehicle.rs`:
integrate the progress, and on completing the segment either despawn
(`none`) or transition onto the pathfinder's next segment. -/
def moveVehicle (road : Road) (dt : ℚ) (v : Vehicle) : Option Vehicle :=
  let segment := road.getSegment v.segment
  let segment_length := segment.length
  let progress' := v.progress + v.speed * dt / segment_length
  if progress' ≥ 1 then
    if (road.getNode segment.toNode).outgoing = [] then none
    else
      match next_segment_toward road segment.toNode v.destination with
      | some (next, route) =>
        let excess_distance := (progress' - 1) * segment_length
        let next_seg := road.getSegment next
        let new_progress := excess_distance / next_seg.length
        some { v with
                route := route
                segment := next
                progress := new_progress
                gap := { v.gap with waiting_time := none } }
      | none => none
  else some { v with progress := progress' }

/-- One simulation tick in the mandated pipeline order
`update_occupancy → apply_gap_acceptance → apply_idm →
move_and_despawn_vehicles`.  Spawning is driven by the process random
source and adds fresh vehicles with `progress = 0`, `speed = 0`; it is not
part of this deterministic step. -/
def tick (dt : ℚ) (road : Road) (vehicles : List Vehicle) : Road × List Vehicle :=
  let occ := fun s => occupantsOn vehicles s
  let p := applyGapAcceptance dt road vehicles
  let vs2 := applyIdmAll p.1 occ dt 0 p.2
  (p.1, vs2.filterMap (moveVehicle p.1 dt))

/-- `INTERSECTION_RADIUS` from `Road::finalize` in `road.rs`. -/
def INTERSECTION_RADIUS : ℚ := 8

/-- `ROUNDABOUT_RADIUS` from `Road::finalize` in `road.rs`. -/
def ROUNDABOUT_RADIUS : ℚ := 12

/-- `INNER_RADIUS` from `Road::finalize` in `road.rs`. -/
def INNER_RADIUS : ℚ := 7

/-- `RAMP_LENGTH` from `Road::finalize` in `road.rs`. -/
def RAMP_LENGTH : ℚ := 15

/-- `LANE_OFFSET` from `Road::finalize` in `road.rs`. -/
def LANE_OFFSET : ℚ := 7/4

/-- Roundabout conflict test for one ordered pair from the conflict pass of
`Road::finalize`: an entry conflicts with a circle segment exactly when the
entry merges at the node where the circle segment ends. -/
def roundaboutPairConflict (a b : Segment) : Bool :=
  if a.turn_type = TurnType.RoundaboutEntry ∧ b.turn_type = TurnType.RoundaboutCircle then
    a.toNode == b.toNode
  else if b.turn_type = TurnType.RoundaboutEntry ∧ a.turn_type = TurnType.RoundaboutCircle then
    b.toNode == a.toNode
  else
    false

/-- Record a conflict edge in the conflicts table
(`conflicts.entry(k).or_default().push(rv)`); the hash map is modelled by
its lookup function. -/
def addConflict (m : ℕ → Option (List ℕ)) (k rv : ℕ) : ℕ → Option (List ℕ) :=
  fun x => if x = k then some ((m k).getD [] ++ [rv]) else m x

/-- Inner loop of the roundabout conflict pass: pair segment `a` with every
later entry of the incoming list. -/
def conflictInner (road : Road) (a : ℕ) : List ℕ → (ℕ → Option (List ℕ)) → ℕ → Option (List ℕ)
  | [], m => m
  | b :: rest, m =>
    if roundaboutPairConflict (road.getSegment a) (road.getSegment b) then
      conflictInner road a rest (addConflict (addConflict m a b) b a)
    else
      conflictInner road a rest m

/-- The conflict pass of `Road::finalize` restricted to a roundabout
intersection: every unordered pair of the incoming micro-segment list is
tested with the roundabout rule and recorded in both directions. -/
def conflictPass (road : Road) : List ℕ → (ℕ → Option (List ℕ)) → ℕ → Option (List ℕ)
  | [], m => m
  | a :: rest, m => conflictPass road rest (conflictInner road a rest m)

/-- The conflicts table a roundabout intersection ends up with after
`finalize`, as a lookup function from segment id to recorded conflicts. -/
def roundaboutConflicts (road : Road) (incoming : List ℕ) : ℕ → Option (List ℕ) :=
  conflictPass road incoming (fun _ => none)

/-! ## Theorems -/

/-- C5, counterexample: the claimed constant table is wrong for the
roundabout radius (12 m in the source, not 8 m) and the ramp length (15 m,
not 8 m). -/
theorem c5_counterexample :
    ¬ (INTERSECTION_RADIUS = 8 ∧ ROUNDABOUT_RADIUS = 8 ∧ RAMP_LENGTH = 8 ∧
       LANE_OFFSET = 7/4) := by
  intro h
  have h2 := h.2.1
  rw [ROUNDABOUT_RADIUS] at h2
  norm_num at h2

/-- C5, amended: finalize expands intersections using
`INTERSECTION_RADIUS = 8 m`, `ROUNDABOUT_RADIUS = 12 m`,
`INNER_RADIUS = 7 m`, `RAMP_LENGTH = 15 m` and `LANE_OFFSET = 1.75 m`. -/
theorem c5_constants :
    INTERSECTION_RADIUS = 8 ∧ ROUNDABOUT_RADIUS = 12 ∧ INNER_RADIUS = 7 ∧
      RAMP_LENGTH = 15 ∧ LANE_OFFSET = 7/4 := by
  refine ⟨rfl, rfl, rfl, rfl, rfl⟩

/-- The right-of-way cascade exactly as the claim words it: (1) queue
preemption on the sentinel, (2) deadlock break by arrival order when both
waits exceed 0.5 s, (3) yield to the right on the direction cross product
with thresholds ±0.3, (4) smaller turn cross magnitude wins when the
difference exceeds 0.1, (5) arrival-order tiebreak. -/
def rightOfWayClaimed (my_turn_type : TurnType) (my_direction : Vec3)
    (my_arrival_order : ℕ) (my_waiting_time : ℚ)
    (their_turn_type : TurnType) (their_direction : Vec3)
    (their_arrival_order : ℕ) (their_waiting_time : ℚ) : Bool :=
  if their_arrival_order = u32MAX ∧ my_arrival_order ≠ u32MAX then true
  else if my_arrival_order = u32MAX ∧ their_arrival_order ≠ u32MAX then false
  else if my_waiting_time > 1/2 ∧ their_waiting_time > 1/2 then
    my_arrival_order < their_arrival_order
  else if (my_direction.cross their_direction).z < -(3/10) then true
  else if (my_direction.cross their_direction).z > 3/10 then false
  else if |my_turn_type.cross - their_turn_type.cross| > 1/10 then
    my_turn_type.cross < their_turn_type.cross
  else my_arrival_order < their_arrival_order

/-- C6: for all inputs, `has_priority` of the `RightOfWay` policy computes
exactly the claimed five-rule cascade, in that order. -/
theorem c6_has_priority_rules (my_turn_type : TurnType) (my_direction : Vec3)
    (my_arrival_order : ℕ) (my_waiting_time : ℚ)
    (their_turn_type : TurnType) (their_direction : Vec3)
    (their_arrival_order : ℕ) (their_waiting_time : ℚ) :
    YieldResolver.RightOfWay.has_priority my_turn_type my_direction
        my_arrival_order my_waiting_time their_turn_type their_direction
        their_arrival_order their_waiting_time =
      rightOfWayClaimed my_turn_type my_direction my_arrival_order
        my_waiting_time their_turn_type their_direction their_arrival_order
        their_waiting_time := by
  rfl

/-- Correspondence of the instrumented next-ahead search with `find_next`:
same result, at most `fuel` segments examined, and the exit cause is
`found` exactly on a hit. -/
theorem findNextTraceGo_spec (road : Road) (occ : ℕ → List Occupant) (entity : ℕ)
    (sp : ℚ) :
    ∀ (fuel seg : ℕ) (p acc : ℚ) (first : Bool),
      (findNextTraceGo road occ entity sp fuel seg p acc first).1 =
          findNextGo road occ entity sp fuel seg p acc first ∧
        (findNextTraceGo road occ entity sp fuel seg p acc first).2.1 ≤ fuel ∧
        ((findNextTraceGo road occ entity sp fuel seg p acc first).1 = none ↔
          (findNextTraceGo road occ entity sp fuel seg p acc first).2.2 ≠ SearchExit.found) := by
  intro fuel
  induction fuel with
  | zero => intro seg p acc first; simp [findNextTraceGo, findNextGo]
  | succ n ih =>
    intro seg p acc first
    simp only [findNextTraceGo, findNextGo]
    rcases hfind : (occ seg).find? (aheadOf p entity) with _ | o
    · simp only [hfind]
      by_cases hn : n = 0
      · subst hn; simp
      · simp only [if_neg hn]
        rcases ho : (road.getNode (road.getSegment seg).toNode).outgoing with _ | ⟨nx, rest⟩
        · simp
        · obtain ⟨h1, h2, h3⟩ := ih nx (-f32MAX)
            (if first then acc + (1 - sp) * elen road seg else acc + elen road seg) false
          exact ⟨h1, Nat.add_le_add_right h2 1, h3⟩
    · simp [hfind]

/-- C9: the next-ahead search always terminates after examining at most 10
segments, and it returns `none` exactly when the traversal stopped by
exhausting the 10-segment horizon or by reaching a node with no outgoing
segments (rather than by finding a leader). -/
theorem c9_find_next_horizon (road : Road) (occ : ℕ → List Occupant) (entity : ℕ)
    (v : Vehicle) :
    (findNextTrace road occ entity v).1 = find_next road occ entity v ∧
      (findNextTrace road occ entity v).2.1 ≤ 10 ∧
      (find_next road occ entity v = none ↔
        (findNextTrace road occ entity v).2.2 = SearchExit.horizon ∨
          (findNextTrace road occ entity v).2.2 = SearchExit.deadEnd) := by
  have h := findNextTraceGo_spec road occ entity v.progress 10 v.segment v.progress 0 true
  refine ⟨h.1, h.2.1, ?_⟩
  rw [find_next, findNextTrace] at *
  rw [← h.1, h.2.2]
  rcases (findNextTraceGo road occ entity v.progress 10 v.segment v.progress 0 true).2.2 with
    _ | _ | _ <;> simp

/-- Phase 1 leaves a vehicle with no second route entry untouched. -/
theorem gapPhase1Vehicle_route_none (road : Road) (v : Vehicle)
    (h : v.route[1]? = none) : (gapPhase1Vehicle road v).2 = v := by
  unfold gapPhase1Vehicle
  split_ifs <;> simp [h]

/-- Phase 1 maps each vehicle independently; a vehicle with no second route
entry is returned unchanged at its index. -/
theorem gapPhase1_get (road : Road) (vs : List Vehicle) (i : ℕ) (v : Vehicle)
    (hv : vs[i]? = some v) (h : v.route[1]? = none) :
    (gapPhase1 road vs).2[i]? = some v := by
  induction vs generalizing road i with
  | nil => simp at hv
  | cons w rest ih =>
    cases i with
    | zero =>
      simp only [List.getElem?_cons_zero, Option.some.injEq] at hv
      cases hv
      simp [gapPhase1, gapPhase1Vehicle_route_none road v h]
    | succ j =>
      simp only [List.getElem?_cons_succ] at hv
      simp [gapPhase1, ih (gapPhase1Vehicle road w).1 j hv]

/-- Phase 3 leaves a vehicle with no second route entry untouched. -/
theorem gapPhase3Vehicle_route_none (road : Road) (dt : ℚ) (infos : List VehicleInfo)
    (e : ℕ) (v : Vehicle) (h : v.route[1]? = none) :
    gapPhase3Vehicle road dt infos e v = v := by
  unfold gapPhase3Vehicle
  split_ifs <;> simp [h]

/-- Phase 3 is an index-wise map of `gapPhase3Vehicle`. -/
theorem gapPhase3All_get (road : Road) (dt : ℚ) (infos : List VehicleInfo) :
    ∀ (e i : ℕ) (vs : List Vehicle) (v : Vehicle), vs[i]? = some v →
      (gapPhase3All road dt infos e vs)[i]? =
        some (gapPhase3Vehicle road dt infos (e + i) v) := by
  intro e i vs
  induction vs generalizing e i with
  | nil => intro v hv; simp at hv
  | cons w rest ih =>
    intro v hv
    cases i with
    | zero =>
      simp only [List.getElem?_cons_zero, Option.some.injEq] at hv
      cases hv
      simp [gapPhase3All]
    | succ j =>
      simp only [List.getElem?_cons_succ] at hv
      have heq : e + (j + 1) = e + 1 + j := by omega
      simp only [gapPhase3All, List.getElem?_cons_succ, heq, ih (e + 1) j v hv]

/-- C10: a gap-acceptance tick leaves a vehicle whose route has no second
entry entirely unchanged (in particular its `waiting_time`,
`cleared_to_go` and `arrival_order` keep their previous values), regardless
of its progress. -/
theorem c10_gap_frame (road : Road) (dt : ℚ) (vehicles : List Vehicle) (i : ℕ)
    (v : Vehicle) (hv : vehicles[i]? = some v) (h : v.route[1]? = none) :
    (applyGapAcceptance dt road vehicles).2[i]? = some v := by
  unfold applyGapAcceptance
  have h1 := gapPhase1_get road vehicles i v hv h
  have h3 := gapPhase3All_get (gapPhase1 road vehicles).1 dt
    (vehicleInfo 0 (gapPhase1 road vehicles).2) 0 i (gapPhase1 road vehicles).2 v h1
  simp only [h3, gapPhase3Vehicle_route_none _ _ _ _ _ h]

/-- IDM parameter set used by the concrete scenarios: aggression 1/2, time
headway 1 s, minimum spacing 1 m, maximal acceleration 2 m/s², comfortable
deceleration 2 m/s² — all inside the blend ranges of `Idm::new`. -/
def idmStd : Idm := ⟨1/2, 1, 1, 2, 2⟩

/-- Three collinear nodes, two 50 m segments, the last node a sink. -/
def roadC1 : Road :=
  ⟨[⟨⟨0, 0, 0⟩, [], [0], true, false, none⟩,
    ⟨⟨50, 0, 0⟩, [0], [1], false, false, none⟩,
    ⟨⟨100, 0, 0⟩, [1], [], false, true, none⟩],
   [⟨0, 1, 14, SegmentGeometry.Straight, TurnType.Straight, 50⟩,
    ⟨1, 2, 14, SegmentGeometry.Straight, TurnType.Straight, 50⟩], []⟩

/-- A vehicle about to finish segment 0 of `roadC1`, holding both a waiting
time and an arrival order. -/
def vC1 : Vehicle :=
  ⟨10, 0, 9/10, 2, [0, 1], idmStd, ⟨5/4, some 2, true, some 5⟩, 9/2, 9/5⟩

/-- C1, counterexample: on a segment transition (the pathfinder returns
segment 1 and the vehicle moves onto it) the waiting time is cleared but
the arrival order is kept — after the transition it is still `some 5`,
refuting the claim that both are unset. -/
theorem c1_counterexample :
    next_segment_toward roadC1 1 2 = some (1, [1]) ∧
      (moveVehicle roadC1 1 vC1).map
          (fun u => (u.segment, u.gap.waiting_time, u.gap.arrival_order)) =
        some (1, none, some 5) := by
  decide

/-- C1, amended: for every vehicle that completes its segment and for which
the pathfinder returns a next segment, the transition clears
`waiting_time`; `arrival_order` is left unchanged (the source never clears
it). -/
theorem c1_transition_clears_waiting (road : Road) (dt : ℚ) (v : Vehicle)
    (next : ℕ) (route : List ℕ)
    (hp : 1 ≤ v.progress + v.speed * dt / (road.getSegment v.segment).length)
    (ho : (road.getNode (road.getSegment v.segment).toNode).outgoing ≠ [])
    (hn : next_segment_toward road (road.getSegment v.segment).toNode v.destination =
      some (next, route)) :
    ∃ v', moveVehicle road dt v = some v' ∧ v'.gap.waiting_time = none ∧
      v'.gap.arrival_order = v.gap.arrival_order ∧ v'.segment = next ∧
      v'.route = route := by
  unfold moveVehicle
  simp only [ge_iff_le, hp, if_true, ho, if_neg, hn]
  exact ⟨_, rfl, rfl, rfl, rfl, rfl⟩

/-- C1 witness: the amended theorem applied to the concrete transition of
`vC1` on `roadC1`. -/
theorem c1_transition_clears_waiting_witness :
    ∃ v', moveVehicle roadC1 1 vC1 = some v' ∧ v'.gap.waiting_time = none ∧
      v'.gap.arrival_order = vC1.gap.arrival_order ∧ v'.segment = 1 ∧
      v'.route = [1] :=
  c1_transition_clears_waiting roadC1 1 vC1 1 [1] (by decide) (by decide) (by decide)

/-- One-segment road with a sink used by the gap-frame witness. -/
def roadC10 : Road :=
  ⟨[⟨⟨0, 0, 0⟩, [], [0], true, false, none⟩,
    ⟨⟨60, 0, 0⟩, [0], [], false, true, none⟩],
   [⟨0, 1, 14, SegmentGeometry.Straight, TurnType.Straight, 60⟩],
   [⟨⟨0, 0, 0⟩, [0], [0], [], [], YieldResolver.RightOfWay, [], 0⟩]⟩

/-- A vehicle on the last segment of its route, deep in the waiting zone. -/
def vC10 : Vehicle :=
  ⟨3, 0, 9/10, 1, [0], idmStd, ⟨5/4, some 7, false, some 2⟩, 9/2, 9/5⟩

/-- C10 witness: the frame theorem applied to the concrete vehicle `vC10`
past the half-way point of the final segment of its route. -/
theorem c10_gap_frame_witness :
    (applyGapAcceptance (1/10) roadC10 [vC10]).2[0]? = some vC10 :=
  c10_gap_frame roadC10 (1/10) [vC10] 0 vC10 (by decide) (by decide)

/-- Same layout as `roadC1`: two 50 m segments ending in a sink. -/
def roadC2 : Road :=
  ⟨[⟨⟨0, 0, 0⟩, [], [0], true, false, none⟩,
    ⟨⟨50, 0, 0⟩, [0], [1], false, false, none⟩,
    ⟨⟨100, 0, 0⟩, [1], [], false, true, none⟩],
   [⟨0, 1, 14, SegmentGeometry.Straight, TurnType.Straight, 50⟩,
    ⟨1, 2, 14, SegmentGeometry.Straight, TurnType.Straight, 50⟩], []⟩

/-- A vehicle that is `cleared_to_go` but still carries a waiting time (the
state gap acceptance leaves after a wait followed by a clearance). -/
def vC2 : Vehicle :=
  ⟨10, 0, 9/10, 2, [0, 1], idmStd, ⟨5/4, some 1, true, none⟩, 9/2, 9/5⟩

/-- C2, counterexample: `vC2` is `cleared_to_go` and has no leader, yet the
IDM update is not the claimed free-road update with `gap = f32::MAX`,
`Δv = 0` — the source branches on `waiting_time.is_some()`, which still
holds, so the vehicle brakes for the stop line instead. -/
theorem c2_counterexample :
    vC2.gap.cleared_to_go = true ∧
      find_next roadC2 (fun s => occupantsOn [vC2] s) 0 vC2 = none ∧
      applyIdmVehicle roadC2 (fun s => occupantsOn [vC2] s) 1 0 vC2 ≠
        { vC2 with speed := max (vC2.speed +
            vC2.idm.acceleration (roadC2.getSegment vC2.segment).speed_limit
              vC2.speed f32MAX 0 * 1) 0 } := by
  decide

/-- C2, amended: the stop-line branch of the IDM update is selected by
`waiting_time` being set (not by `cleared_to_go`).  With a waiting time the
gap is the smaller of the stop-line distance
`max ((1 − progress)·length − length/2) 0` and the lead distance, with
`Δv` the vehicle's own speed when the stop line is strictly smaller and
`speed − leader.speed` otherwise; with no waiting time and no leader the
gap is `f32::MAX` with `Δv = 0`, and with a leader it is the lead distance
with `Δv = speed − leader.speed`. -/
theorem c2_idm_gap_selection (road : Road) (occ : ℕ → List Occupant) (dt : ℚ)
    (entity : ℕ) (v : Vehicle) :
    (v.gap.waiting_time = none → find_next road occ entity v = none →
      applyIdmVehicle road occ dt entity v =
        { v with speed := max (v.speed +
            v.idm.acceleration (road.getSegment v.segment).speed_limit
              v.speed f32MAX 0 * dt) 0 }) ∧
    (∀ o d, v.gap.waiting_time = none → find_next road occ entity v = some (o, d) →
      applyIdmVehicle road occ dt entity v =
        { v with speed := max (v.speed +
            v.idm.acceleration (road.getSegment v.segment).speed_limit
              v.speed d (v.speed - o.speed) * dt) 0 }) ∧
    (∀ w, v.gap.waiting_time = some w → find_next road occ entity v = none →
      applyIdmVehicle road occ dt entity v =
        { v with speed := max (v.speed +
            v.idm.acceleration (road.getSegment v.segment).speed_limit v.speed
              (max ((1 - v.progress) * (road.getSegment v.segment).length - v.length / 2) 0)
              v.speed * dt) 0 }) ∧
    (∀ w o d, v.gap.waiting_time = some w → find_next road occ entity v = some (o, d) →
      applyIdmVehicle road occ dt entity v =
        { v with speed := max (v.speed +
            v.idm.acceleration (road.getSegment v.segment).speed_limit v.speed
              (min d (max ((1 - v.progress) * (road.getSegment v.segment).length - v.length / 2) 0))
              (if min d (max ((1 - v.progress) * (road.getSegment v.segment).length - v.length / 2) 0) = d
               then v.speed - o.speed else v.speed) * dt) 0 }) := by
  refine ⟨?_, ?_, ?_, ?_⟩
  · intro h1 h2; simp only [applyIdmVehicle, h1, h2]
  · intro o d h1 h2; simp only [applyIdmVehicle, h1, h2]
  · intro w h1 h2; simp only [applyIdmVehicle, h1, h2]
  · intro w o d h1 h2; simp only [applyIdmVehicle, h1, h2]

/-- C2 witness: the waiting-no-leader case of the amended theorem applied to
`vC2` on `roadC2`. -/
theorem c2_idm_gap_selection_witness :
    applyIdmVehicle roadC2 (fun s => occupantsOn [vC2] s) 1 0 vC2 =
      { vC2 with speed := max (vC2.speed +
          vC2.idm.acceleration (roadC2.getSegment vC2.segment).speed_limit vC2.speed
            (max ((1 - vC2.progress) * (roadC2.getSegment vC2.segment).length - vC2.length / 2) 0)
            vC2.speed * 1) 0 } :=
  (c2_idm_gap_selection roadC2 (fun s => occupantsOn [vC2] s) 1 0 vC2).2.2.1 1 rfl (by decide)

/-- A segment never conflicts with itself under the roundabout rule (it
cannot be both an entry and a circle segment). -/
theorem roundaboutPairConflict_irrefl (s : Segment) :
    roundaboutPairConflict s s = false := by
  unfold roundaboutPairConflict
  split_ifs with h1
  · obtain ⟨ha, hb⟩ := h1; rw [ha] at hb; exact absurd hb (by decide)
  · rfl

/-- The roundabout pair rule is symmetric. -/
theorem roundaboutPairConflict_symm (a b : Segment) :
    roundaboutPairConflict a b = roundaboutPairConflict b a := by
  unfold roundaboutPairConflict
  by_cases h1 : a.turn_type = TurnType.RoundaboutEntry ∧ b.turn_type = TurnType.RoundaboutCircle
  · have h2 : ¬ (b.turn_type = TurnType.RoundaboutEntry ∧ a.turn_type = TurnType.RoundaboutCircle) := by
      rintro ⟨hb, _⟩; rw [h1.2] at hb; exact absurd hb (by decide)
    simp [h1, h2]
  · by_cases h2 : b.turn_type = TurnType.RoundaboutEntry ∧ a.turn_type = TurnType.RoundaboutCircle
    · simp [h1, h2]
    · simp [h1, h2]

/-- Membership after recording one conflict edge. -/
theorem addConflict_mem (m : ℕ → Option (List ℕ)) (k rv x y : ℕ) :
    y ∈ ((addConflict m k rv x).getD []) ↔ y ∈ ((m x).getD []) ∨ (x = k ∧ y = rv) := by
  unfold addConflict
  split_ifs with h
  · subst h; simp
  · simp [h]

/-- Membership in the conflicts table after the inner pairing loop of the
conflict pass. -/
theorem conflictInner_mem (road : Road) (a : ℕ) :
    ∀ (rest : List ℕ) (m : ℕ → Option (List ℕ)) (x y : ℕ),
      y ∈ ((conflictInner road a rest m x).getD []) ↔
        y ∈ ((m x).getD []) ∨
          (x = a ∧ y ∈ rest ∧
            roundaboutPairConflict (road.getSegment a) (road.getSegment y) = true) ∨
          (y = a ∧ x ∈ rest ∧
            roundaboutPairConflict (road.getSegment a) (road.getSegment x) = true) := by
  intro rest
  induction rest with
  | nil => intro m x y; simp [conflictInner]
  | cons b rest ih =>
    intro m x y
    rw [conflictInner]
    by_cases hpc : roundaboutPairConflict (road.getSegment a) (road.getSegment b) = true
    · rw [if_pos hpc, ih, addConflict_mem, addConflict_mem]
      constructor
      · rintro (((hm | ⟨hx, hy⟩) | ⟨hx, hy⟩) | ⟨hx, hy, hc⟩ | ⟨hy, hx, hc⟩)
        · exact Or.inl hm
        · subst hx; subst hy; exact Or.inr (Or.inl ⟨rfl, List.mem_cons_self _ _, hpc⟩)
        · subst hx; subst hy; exact Or.inr (Or.inr ⟨rfl, List.mem_cons_self _ _, hpc⟩)
        · exact Or.inr (Or.inl ⟨hx, List.mem_cons_of_mem _ hy, hc⟩)
        · exact Or.inr (Or.inr ⟨hy, List.mem_cons_of_mem _ hx, hc⟩)
      · rintro (hm | ⟨hx, hy, hc⟩ | ⟨hy, hx, hc⟩)
        · exact Or.inl (Or.inl (Or.inl hm))
        · rcases List.mem_cons.mp hy with hyb | hyr
          · subst hyb; exact Or.inl (Or.inl (Or.inr ⟨hx, rfl⟩))
          · exact Or.inr (Or.inl ⟨hx, hyr, hc⟩)
        · rcases List.mem_cons.mp hx with hxb | hxr
          · subst hxb; exact Or.inl (Or.inr ⟨rfl, hy⟩)
          · exact Or.inr (Or.inr ⟨hy, hxr, hc⟩)
    · rw [if_neg hpc, ih]
      constructor
      · rintro (hm | ⟨hx, hy, hc⟩ | ⟨hy, hx, hc⟩)
        · exact Or.inl hm
        · exact Or.inr (Or.inl ⟨hx, List.mem_cons_of_mem _ hy, hc⟩)
        · exact Or.inr (Or.inr ⟨hy, List.mem_cons_of_mem _ hx, hc⟩)
      · rintro (hm | ⟨hx, hy, hc⟩ | ⟨hy, hx, hc⟩)
        · exact Or.inl hm
        · rcases List.mem_cons.mp hy with hyb | hyr
          · subst hyb; exact absurd hc hpc
          · exact Or.inr (Or.inl ⟨hx, hyr, hc⟩)
        · rcases List.mem_cons.mp hx with hxb | hxr
          · subst hxb; exact absurd hc hpc
          · exact Or.inr (Or.inr ⟨hy, hxr, hc⟩)

/-- Membership in the conflicts table built by the whole conflict pass: a
conflict is recorded from `x` to `y` exactly when both are in the incoming
list, are distinct, and satisfy the roundabout pair rule. -/
theorem conflictPass_mem (road : Road) :
    ∀ (l : List ℕ) (m : ℕ → Option (List ℕ)) (x y : ℕ),
      y ∈ ((conflictPass road l m x).getD []) ↔
        y ∈ ((m x).getD []) ∨
          (x ∈ l ∧ y ∈ l ∧ x ≠ y ∧
            roundaboutPairConflict (road.getSegment x) (road.getSegment y) = true) := by
  intro l
  induction l with
  | nil => intro m x y; simp [conflictPass]
  | cons a rest ih =>
    intro m x y
    rw [conflictPass, ih, conflictInner_mem]
    have hsymm := roundaboutPairConflict_symm (road.getSegment x) (road.getSegment y)
    constructor
    · rintro ((hm | ⟨hx, hy, hc⟩ | ⟨hy, hx, hc⟩) | ⟨hx, hy, hne, hc⟩)
      · exact Or.inl hm
      · subst hx
        have hne : x ≠ y := by
          intro he; rw [← he, roundaboutPairConflict_irrefl] at hc; cases hc
        exact Or.inr ⟨List.mem_cons_self _ _, List.mem_cons_of_mem _ hy, hne, hc⟩
      · subst hy
        have hne : x ≠ y := by
          intro he; rw [he, roundaboutPairConflict_irrefl] at hc; cases hc
        exact Or.inr ⟨List.mem_cons_of_mem _ hx, List.mem_cons_self _ _, hne,
          by rw [hsymm]; exact hc⟩
      · exact Or.inr ⟨List.mem_cons_of_mem _ hx, List.mem_cons_of_mem _ hy, hne, hc⟩
    · rintro (hm | ⟨hx, hy, hne, hc⟩)
      · exact Or.inl (Or.inl hm)
      · rcases List.mem_cons.mp hx with hxa | hxr
        · subst hxa
          rcases List.mem_cons.mp hy with hya | hyr
          · exact absurd hya.symm hne
          · exact Or.inl (Or.inr (Or.inl ⟨rfl, hyr, hc⟩))
        · rcases List.mem_cons.mp hy with hya | hyr
          · subst hya
            exact Or.inl (Or.inr (Or.inr ⟨rfl, hxr, by rw [← hsymm]; exact hc⟩))
          · exact Or.inr ⟨hxr, hyr, hne, hc⟩

/-- The roundabout pair rule spelt out on turn types and end nodes. -/
theorem roundaboutPairConflict_iff (s t : Segment) :
    roundaboutPairConflict s t = true ↔
      (s.turn_type = TurnType.RoundaboutEntry ∧ t.turn_type = TurnType.RoundaboutCircle ∧
        s.toNode = t.toNode) ∨
      (t.turn_type = TurnType.RoundaboutEntry ∧ s.turn_type = TurnType.RoundaboutCircle ∧
        t.toNode = s.toNode) := by
  unfold roundaboutPairConflict
  split_ifs with h1 h2 <;> simp_all [beq_iff_eq]

/-- C8: in the conflicts table of a roundabout intersection, a conflict is
recorded between two micro-segments of the incoming list if and only if one
is a `RoundaboutEntry`, the other a `RoundaboutCircle`, and both end at the
same node; every other pair has no conflict recorded. -/
theorem c8_roundabout_conflicts (road : Road) (incoming : List ℕ) (a b : ℕ) :
    b ∈ ((roundaboutConflicts road incoming a).getD []) ↔
      a ∈ incoming ∧ b ∈ incoming ∧
        (((road.getSegment a).turn_type = TurnType.RoundaboutEntry ∧
            (road.getSegment b).turn_type = TurnType.RoundaboutCircle ∧
            (road.getSegment a).toNode = (road.getSegment b).toNode) ∨
          ((road.getSegment b).turn_type = TurnType.RoundaboutEntry ∧
            (road.getSegment a).turn_type = TurnType.RoundaboutCircle ∧
            (road.getSegment b).toNode = (road.getSegment a).toNode)) := by
  rw [roundaboutConflicts, conflictPass_mem]
  simp only [Option.getD_none, List.not_mem_nil, false_or]
  constructor
  · rintro ⟨ha, hb, _, hc⟩
    exact ⟨ha, hb, (roundaboutPairConflict_iff _ _).mp hc⟩
  · rintro ⟨ha, hb, hprop⟩
    have hc := (roundaboutPairConflict_iff _ _).mpr hprop
    have hne : a ≠ b := by
      intro he; rw [he, roundaboutPairConflict_irrefl] at hc; cases hc
    exact ⟨ha, hb, hne, hc⟩

/-- The z component of the cross product is antisymmetric. -/
theorem cross_z_antisymm (a b : Vec3) : (b.cross a).z = -((a.cross b).z) := by
  simp only [Vec3.cross]
  ring

set_option maxHeartbeats 1600000 in
/-- C7: `has_priority` for the `RightOfWay` policy is antisymmetric whenever
the two arrival orders differ — if one vehicle has priority over the other,
the swapped query denies priority. -/
theorem c7_has_priority_antisymm (mt : TurnType) (md : Vec3) (ma : ℕ) (mw : ℚ)
    (tt : TurnType) (td : Vec3) (ta : ℕ) (tw : ℚ) (hne : ma ≠ ta)
    (h : YieldResolver.RightOfWay.has_priority mt md ma mw tt td ta tw = true) :
    YieldResolver.RightOfWay.has_priority tt td ta tw mt md ma mw = false := by
  have hc := cross_z_antisymm md td
  have habs : |tt.cross - mt.cross| = |mt.cross - tt.cross| := abs_sub_comm _ _
  simp only [YieldResolver.has_priority, rightOfWayPriority, DEADLOCK_THRESHOLD] at h ⊢
  split_ifs at h ⊢
  all_goals try (with_reducible rfl)
  all_goals try (rw [decide_eq_true_eq] at h)
  all_goals try (rw [decide_eq_false_iff_not])
  all_goals try (exfalso; omega)
  all_goals try omega
  all_goals try (exfalso; linarith [hc, habs])
  all_goals try (linarith [hc, habs])
  all_goals
    first
      | exact absurd ⟨‹tw > 1/2 ∧ mw > 1/2›.2, ‹tw > 1/2 ∧ mw > 1/2›.1⟩ ‹¬(mw > 1/2 ∧ tw > 1/2)›
      | exact absurd ⟨‹mw > 1/2 ∧ tw > 1/2›.2, ‹mw > 1/2 ∧ tw > 1/2›.1⟩ ‹¬(tw > 1/2 ∧ mw > 1/2)›

/-- C7 witness: the antisymmetry theorem applied to the concrete
north-versus-east approach (north heading south has priority, so the east
vehicle heading west is denied). -/
theorem c7_has_priority_antisymm_witness :
    YieldResolver.RightOfWay.has_priority TurnType.Straight ⟨-1, 0, 0⟩ 2 0
      TurnType.Straight ⟨0, -1, 0⟩ 1 0 = false :=
  c7_has_priority_antisymm TurnType.Straight ⟨0, -1, 0⟩ 1 0
    TurnType.Straight ⟨-1, 0, 0⟩ 2 0 (by decide) (by decide)

/-- Membership through the stable insertion. -/
theorem insertOccupant_mem (x o : Occupant) :
    ∀ l : List Occupant, x ∈ insertOccupant o l ↔ x = o ∨ x ∈ l := by
  intro l
  induction l with
  | nil => simp [insertOccupant]
  | cons a rest ih =>
    rw [insertOccupant]
    split_ifs
    · rw [List.mem_cons, ih, List.mem_cons]
      tauto
    · rw [List.mem_cons]

/-- Membership through the sorting fold of `occupantsOn`. -/
theorem foldl_insertOccupant_mem (x : Occupant) :
    ∀ (l init : List Occupant),
      x ∈ l.foldl (fun acc o => insertOccupant o acc) init ↔ x ∈ init ∨ x ∈ l := by
  intro l
  induction l with
  | nil => simp
  | cons a rest ih =>
    intro init
    rw [List.foldl_cons, ih, insertOccupant_mem, List.mem_cons]
    tauto

/-- Every occupant collected for segment `seg` sits on that segment. -/
theorem occupantsAux_segment (seg : ℕ) :
    ∀ (e : ℕ) (vs : List Vehicle) (x : Occupant), x ∈ occupantsAux seg e vs →
      x.segment = seg := by
  intro e vs
  induction vs generalizing e with
  | nil => intro x hx; simp [occupantsAux] at hx
  | cons v rest ih =>
    intro x hx
    rw [occupantsAux] at hx
    split_ifs at hx with hseg
    · rcases List.mem_cons.mp hx with hx0 | hxr
      · rw [hx0]
        exact hseg
      · exact ih (e + 1) x hxr
    · exact ih (e + 1) x hx

/-- Every occupant in the occupancy bucket of `seg` sits on `seg`. -/
theorem occupantsOn_segment (vehicles : List Vehicle) (seg : ℕ) (x : Occupant)
    (hx : x ∈ occupantsOn vehicles seg) : x.segment = seg := by
  rw [occupantsOn, foldl_insertOccupant_mem] at hx
  rcases hx with hx | hx
  · simp at hx
  · exact occupantsAux_segment seg 0 vehicles x hx

/-- Distance invariant of the cross-segment phase of the next-ahead search:
a hit after the first segment lies `k` hops down the first-outgoing chain,
at the accumulated distance plus the chain lengths plus the leader's
progress share. -/
theorem findNextGo_false_dist (road : Road) (occ : ℕ → List Occupant) (entity : ℕ)
    (sp : ℚ) :
    ∀ (fuel seg : ℕ) (p acc : ℚ) (o : Occupant) (d : ℚ),
      findNextGo road occ entity sp fuel seg p acc false = some (o, d) →
      ∃ k s', k < fuel ∧ chainFrom road seg k = some s' ∧ o ∈ occ s' ∧
        d = acc + chainLens road seg k + o.progress * elen road s' := by
  intro fuel
  induction fuel with
  | zero => intro seg p acc o d h; rw [findNextGo] at h; cases h
  | succ n ih =>
    intro seg p acc o d h
    rw [findNextGo] at h
    rcases hfind : (occ seg).find? (aheadOf p entity) with _ | o'
    · rw [hfind] at h
      simp only at h
      by_cases hn : n = 0
      · rw [if_pos hn] at h; cases h
      · rw [if_neg hn] at h
        rcases ho : (road.getNode (road.getSegment seg).toNode).outgoing with _ | ⟨nx, rest⟩
        · rw [ho] at h; cases h
        · rw [ho] at h
          obtain ⟨k, s', hk, hchain, hmem, hd⟩ := ih nx (-f32MAX) (acc + elen road seg) o d h
          refine ⟨k + 1, s', by omega, ?_, hmem, ?_⟩
          · rw [chainFrom]
            have : nextSeg road seg = some nx := by rw [nextSeg, ho]
            rw [this]
            exact hchain
          · have : nextSeg road seg = some nx := by rw [nextSeg, ho]
            rw [chainLens, this, hd]
            ring
    · rw [hfind] at h
      simp only [Option.some.injEq, Prod.mk.injEq] at h
      refine ⟨0, seg, by omega, rfl, ?_, ?_⟩
      · rw [← h.1]; exact List.mem_of_find?_eq_some hfind
      · rw [chainLens, ← h.1, ← h.2]
        simp

/-- C4, amended: when the next-ahead search finds a leader, the returned
distance is computed from the Euclidean distance between each segment's
endpoint nodes (`elen`), not from the stored (arc) lengths: on the same
segment it is `(leader.progress − self.progress) · elen`, and on a later
segment it is the remainder of the own segment plus the chain of
intervening endpoint distances plus `leader.progress · elen` of the
leader's segment. -/
theorem c4_find_next_distance (road : Road) (vehicles : List Vehicle) (entity : ℕ)
    (v : Vehicle) (o : Occupant) (d : ℚ)
    (h : find_next road (fun s => occupantsOn vehicles s) entity v = some (o, d)) :
    (o.segment = v.segment ∧ d = (o.progress - v.progress) * elen road v.segment) ∨
    (∃ n k, nextSeg road v.segment = some n ∧ k ≤ 8 ∧
      chainFrom road n k = some o.segment ∧
      d = (1 - v.progress) * elen road v.segment + chainLens road n k +
        o.progress * elen road o.segment) := by
  rw [find_next, findNextGo] at h
  rcases hfind : (occupantsOn vehicles v.segment).find? (aheadOf v.progress entity) with _ | o'
  · rw [hfind] at h
    simp only at h
    rcases ho : (road.getNode (road.getSegment v.segment).toNode).outgoing with _ | ⟨nx, rest⟩
    · rw [ho] at h; cases h
    · rw [ho] at h
      obtain ⟨k, s', hk, hchain, hmem, hd⟩ :=
        findNextGo_false_dist road (fun s => occupantsOn vehicles s) entity v.progress
          9 nx (-f32MAX) (0 + (1 - v.progress) * elen road v.segment) o d h
      have hseg : o.segment = s' := occupantsOn_segment vehicles s' o hmem
      refine Or.inr ⟨nx, k, by rw [nextSeg, ho], by omega, by rw [hseg]; exact hchain, ?_⟩
      rw [hd, hseg]
      ring
  · rw [hfind] at h
    simp only [Option.some.injEq, Prod.mk.injEq, if_true] at h
    obtain ⟨h1, h2⟩ := h
    subst h1
    have hmem : o' ∈ occupantsOn vehicles v.segment := List.mem_of_find?_eq_some hfind
    exact Or.inl ⟨occupantsOn_segment vehicles v.segment o' hmem, h2.symm⟩

/-- One curved segment from `(0,0,0)` to `(3,4,0)` whose stored arc length
is 10 while the endpoint distance is 5. -/
def roadC4 : Road :=
  ⟨[⟨⟨0, 0, 0⟩, [], [0], true, false, none⟩,
    ⟨⟨3, 4, 0⟩, [0], [], false, true, none⟩],
   [⟨0, 1, 10, SegmentGeometry.Curved ⟨3, 0, 0⟩ 5 false, TurnType.Straight, 10⟩], []⟩

/-- The searching vehicle on `roadC4`, at the start of the segment. -/
def vC4sub : Vehicle :=
  ⟨0, 0, 0, 1, [0], idmStd, ⟨5/4, none, false, none⟩, 9/2, 9/5⟩

/-- The leader on `roadC4`, halfway along the same segment. -/
def vC4lead : Vehicle :=
  ⟨0, 0, 1/2, 1, [0], idmStd, ⟨5/4, none, false, none⟩, 9/2, 9/5⟩

/-- C4, counterexample: on the curved segment of `roadC4` the next-ahead
search returns distance `5/2` — half the endpoint (chord) distance — while
the claim predicts half the stored arc length, `5`. -/
theorem c4_counterexample :
    find_next roadC4 (fun s => occupantsOn [vC4sub, vC4lead] s) 0 vC4sub =
      some (⟨1/2, 1, 0, 0⟩, 5/2) ∧
      (roadC4.getSegment 0).length = 10 ∧
      (5/2 : ℚ) ≠ (((1/2 : ℚ) - 0) * (roadC4.getSegment 0).length) := by
  decide

/-- C4 witness: the amended distance theorem applied to the concrete
same-segment leader of `roadC4`. -/
theorem c4_find_next_distance_witness :
    ((⟨1/2, 1, 0, 0⟩ : Occupant).segment = vC4sub.segment ∧
      (5/2 : ℚ) = ((1/2 : ℚ) - vC4sub.progress) * elen roadC4 vC4sub.segment) ∨
    (∃ n k, nextSeg roadC4 vC4sub.segment = some n ∧ k ≤ 8 ∧
      chainFrom roadC4 n k = some (⟨1/2, 1, 0, 0⟩ : Occupant).segment ∧
      (5/2 : ℚ) = (1 - vC4sub.progress) * elen roadC4 vC4sub.segment +
        chainLens roadC4 n k +
        (⟨1/2, 1, 0, 0⟩ : Occupant).progress * elen roadC4 (⟨1/2, 1, 0, 0⟩ : Occupant).segment) :=
  c4_find_next_distance roadC4 [vC4sub, vC4lead] 0 vC4sub ⟨1/2, 1, 0, 0⟩ (5/2) (by decide)

/-- Phase 1 never changes a vehicle's progress or speed. -/
theorem gapPhase1Vehicle_core (road : Road) (v : Vehicle) :
    (gapPhase1Vehicle road v).2.progress = v.progress ∧
      (gapPhase1Vehicle road v).2.speed = v.speed := by
  unfold gapPhase1Vehicle
  split_ifs <;> (repeat' split) <;> exact ⟨rfl, rfl⟩

/-- Phase 1 never changes the node or segment arenas of the road. -/
theorem gapPhase1Vehicle_road (road : Road) (v : Vehicle) :
    (gapPhase1Vehicle road v).1.segments = road.segments ∧
      (gapPhase1Vehicle road v).1.nodes = road.nodes := by
  unfold gapPhase1Vehicle
  split_ifs <;> (repeat' split) <;> exact ⟨rfl, rfl⟩

/-- Every vehicle leaving phase 1 is a phase-1 image of an input vehicle,
with progress and speed unchanged. -/
theorem gapPhase1_mem (v₁ : Vehicle) :
    ∀ (road : Road) (vs : List Vehicle), v₁ ∈ (gapPhase1 road vs).2 →
      ∃ v₀ ∈ vs, v₁.progress = v₀.progress ∧ v₁.speed = v₀.speed := by
  intro road vs
  induction vs generalizing road with
  | nil => intro h; simp [gapPhase1] at h
  | cons w rest ih =>
    intro h
    simp only [gapPhase1, List.mem_cons] at h
    rcases h with h0 | hr
    · exact ⟨w, List.mem_cons_self _ _,
        by rw [h0]; exact (gapPhase1Vehicle_core road w).1,
        by rw [h0]; exact (gapPhase1Vehicle_core road w).2⟩
    · obtain ⟨v₀, hm, hp, hs⟩ := ih (gapPhase1Vehicle road w).1 hr
      exact ⟨v₀, List.mem_cons_of_mem _ hm, hp, hs⟩

/-- Phase 1 of gap acceptance keeps the segment arena of the road. -/
theorem gapPhase1_road : ∀ (road : Road) (vs : List Vehicle),
    (gapPhase1 road vs).1.segments = road.segments := by
  intro road vs
  induction vs generalizing road with
  | nil => rfl
  | cons w rest ih =>
    simp only [gapPhase1]
    rw [ih (gapPhase1Vehicle road w).1, (gapPhase1Vehicle_road road w).1]

/-- Phase 3 never changes a vehicle's progress or speed. -/
theorem gapPhase3Vehicle_core (road : Road) (dt : ℚ) (infos : List VehicleInfo)
    (e : ℕ) (v : Vehicle) :
    (gapPhase3Vehicle road dt infos e v).progress = v.progress ∧
      (gapPhase3Vehicle road dt infos e v).speed = v.speed := by
  unfold gapPhase3Vehicle
  split_ifs
  all_goals repeat' first | split | dsimp only
  all_goals exact ⟨rfl, rfl⟩

/-- Every vehicle leaving phase 3 is a phase-3 image of an input vehicle,
with progress and speed unchanged. -/
theorem gapPhase3All_mem (road : Road) (dt : ℚ) (infos : List VehicleInfo) :
    ∀ (e : ℕ) (vs : List Vehicle) (v₂ : Vehicle), v₂ ∈ gapPhase3All road dt infos e vs →
      ∃ v₀ ∈ vs, v₂.progress = v₀.progress ∧ v₂.speed = v₀.speed := by
  intro e vs
  induction vs generalizing e with
  | nil => intro v₂ h; simp [gapPhase3All] at h
  | cons w rest ih =>
    intro v₂ h
    simp only [gapPhase3All, List.mem_cons] at h
    rcases h with h0 | hr
    · exact ⟨w, List.mem_cons_self _ _,
        by rw [h0]; exact (gapPhase3Vehicle_core road dt infos e w).1,
        by rw [h0]; exact (gapPhase3Vehicle_core road dt infos e w).2⟩
    · obtain ⟨v₀, hm, hp, hs⟩ := ih (e + 1) v₂ hr
      exact ⟨v₀, List.mem_cons_of_mem _ hm, hp, hs⟩

/-- A gap-acceptance pass keeps each surviving vehicle's progress and speed. -/
theorem applyGapAcceptance_mem (dt : ℚ) (road : Road) (vs : List Vehicle)
    (v₁ : Vehicle) (h : v₁ ∈ (applyGapAcceptance dt road vs).2) :
    ∃ v₀ ∈ vs, v₁.progress = v₀.progress ∧ v₁.speed = v₀.speed := by
  simp only [applyGapAcceptance] at h
  obtain ⟨w, hw, hpw, hsw⟩ := gapPhase3All_mem _ _ _ _ _ _ h
  obtain ⟨v₀, h0, hp0, hs0⟩ := gapPhase1_mem _ _ _ hw
  exact ⟨v₀, h0, by rw [hpw, hp0], by rw [hsw, hs0]⟩

/-- A gap-acceptance pass keeps the segment arena of the road. -/
theorem applyGapAcceptance_road (dt : ℚ) (road : Road) (vs : List Vehicle) :
    (applyGapAcceptance dt road vs).1.segments = road.segments :=
  gapPhase1_road road vs

/-- Every vehicle leaving the IDM stage is the IDM image of an input
vehicle. -/
theorem applyIdmAll_mem (road : Road) (occ : ℕ → List Occupant) (dt : ℚ) :
    ∀ (e : ℕ) (vs : List Vehicle) (v₂ : Vehicle), v₂ ∈ applyIdmAll road occ dt e vs →
      ∃ e' v₁, v₁ ∈ vs ∧ v₂ = applyIdmVehicle road occ dt e' v₁ := by
  intro e vs
  induction vs generalizing e with
  | nil => intro v₂ h; simp [applyIdmAll] at h
  | cons w rest ih =>
    intro v₂ h
    simp only [applyIdmAll, List.mem_cons] at h
    rcases h with h0 | hr
    · exact ⟨e, w, List.mem_cons_self _ _, h0⟩
    · obtain ⟨e', v₁, hm, hv⟩ := ih (e + 1) v₂ hr
      exact ⟨e', v₁, List.mem_cons_of_mem _ hm, hv⟩

/-- The IDM stage does not move the vehicle. -/
theorem applyIdmVehicle_progress (road : Road) (occ : ℕ → List Occupant) (dt : ℚ)
    (e : ℕ) (v : Vehicle) : (applyIdmVehicle road occ dt e v).progress = v.progress :=
  rfl

/-- The IDM stage clamps the new speed at zero from below. -/
theorem applyIdmVehicle_speed_nonneg (road : Road) (occ : ℕ → List Occupant) (dt : ℚ)
    (e : ℕ) (v : Vehicle) : 0 ≤ (applyIdmVehicle road occ dt e v).speed :=
  le_max_right _ _

/-- A segment looked up in the arena has positive length when all stored
segments do; an out-of-range id yields the zero-length placeholder. -/
theorem getSegment_length_cases (road : Road)
    (hlen : ∀ s ∈ road.segments, 0 < s.length) (s : ℕ) :
    0 < (road.getSegment s).length ∨ (road.getSegment s).length = 0 := by
  rw [Road.getSegment]
  rcases hg : road.segments[s]? with _ | seg
  · right
    simp [List.getD, hg, dummySegment]
  · left
    have hmem : seg ∈ road.segments := by
      have := List.getElem?_eq_some.mp hg
      obtain ⟨hlt, he⟩ := this
      rw [← he]
      exact List.getElem_mem hlt
    simpa [List.getD, hg] using hlen seg hmem

/-- Progress bounds of one motion step: the result of `moveVehicle` always
keeps `0 ≤ progress` and keeps the speed; it additionally keeps
`progress ≤ 1` whenever the excess distance at a transition does not
exceed the next segment's length. -/
theorem moveVehicle_bounds (road : Road) (dt : ℚ) (v v' : Vehicle)
    (hdt : 0 ≤ dt) (hp0 : 0 ≤ v.progress) (hp1 : v.progress ≤ 1) (hs : 0 ≤ v.speed)
    (hlen : ∀ s ∈ road.segments, 0 < s.length)
    (hm : moveVehicle road dt v = some v') :
    0 ≤ v'.progress ∧ v'.speed = v.speed ∧
      ((∀ pr ∈ (next_segment_toward road (road.getSegment v.segment).toNode
          v.destination).toList,
        (v.progress + v.speed * dt / (road.getSegment v.segment).length - 1) *
            (road.getSegment v.segment).length ≤ (road.getSegment pr.1).length) →
        v'.progress ≤ 1) := by
  have hL := getSegment_length_cases road hlen v.segment
  have hL0 : 0 ≤ (road.getSegment v.segment).length := by
    rcases hL with h | h
    · exact le_of_lt h
    · rw [h]
  have hdelta : 0 ≤ v.speed * dt / (road.getSegment v.segment).length := by
    rcases hL with h | h
    · exact div_nonneg (mul_nonneg hs hdt) (le_of_lt h)
    · rw [h, div_zero]
  have hp' : 0 ≤ v.progress + v.speed * dt / (road.getSegment v.segment).length :=
    add_nonneg hp0 hdelta
  simp only [moveVehicle] at hm
  by_cases hge : v.progress + v.speed * dt / (road.getSegment v.segment).length ≥ 1
  swap
  · rw [if_neg hge] at hm
    simp only [Option.some.injEq] at hm
    subst hm
    exact ⟨hp', rfl, fun _ => le_of_lt (lt_of_not_ge hge)⟩
  rw [if_pos hge] at hm
  by_cases hout : (road.getNode (road.getSegment v.segment).toNode).outgoing = []
  · rw [if_pos hout] at hm
    exact absurd hm (by simp)
  · rw [if_neg hout] at hm
    rcases hnt : next_segment_toward road (road.getSegment v.segment).toNode
        v.destination with _ | ⟨n, r⟩
    · rw [hnt] at hm; exact absurd hm (by simp)
    · rw [hnt] at hm
      simp only [Option.some.injEq] at hm
      subst hm
      have hexcess : 0 ≤ (v.progress + v.speed * dt / (road.getSegment v.segment).length - 1) *
          (road.getSegment v.segment).length :=
        mul_nonneg (by linarith [hge]) hL0
      have hLn := getSegment_length_cases road hlen n
      refine ⟨?_, rfl, ?_⟩
      · rcases hLn with h | h
        · exact div_nonneg hexcess (le_of_lt h)
        · simp only [h, div_zero]
          exact le_rfl
      · intro hover
        have hov := hover (n, r) (by simp [Option.toList])
        rcases hLn with h | h
        · exact (div_le_one h).mpr hov
        · simp only [h, div_zero]
          exact zero_le_one

/-- C3, amended: after a full tick every surviving vehicle unconditionally
has `0 ≤ progress` and `0 ≤ speed`; `progress ≤ 1` holds in addition
whenever no vehicle's transition overshoots past the end of the
pathfinder's next segment (the proviso the counterexample shows is
necessary: the source converts the excess distance to the next segment
only once). -/
theorem c3_tick_bounds (road : Road) (dt : ℚ) (vs : List Vehicle)
    (hdt : 0 ≤ dt)
    (hv : ∀ v ∈ vs, 0 ≤ v.progress ∧ v.progress ≤ 1 ∧ 0 ≤ v.speed)
    (hlen : ∀ s ∈ road.segments, 0 < s.length) :
    ∀ v' ∈ (tick dt road vs).2, 0 ≤ v'.progress ∧ 0 ≤ v'.speed ∧
      ((∀ v₂ ∈ applyIdmAll (applyGapAcceptance dt road vs).1
          (fun s => occupantsOn vs s) dt 0 (applyGapAcceptance dt road vs).2,
        ∀ pr ∈ (next_segment_toward (applyGapAcceptance dt road vs).1
            ((applyGapAcceptance dt road vs).1.getSegment v₂.segment).toNode
            v₂.destination).toList,
          (v₂.progress + v₂.speed * dt /
                ((applyGapAcceptance dt road vs).1.getSegment v₂.segment).length - 1) *
              ((applyGapAcceptance dt road vs).1.getSegment v₂.segment).length ≤
            ((applyGapAcceptance dt road vs).1.getSegment pr.1).length) →
        v'.progress ≤ 1) := by
  intro v' hv'
  simp only [tick] at hv'
  obtain ⟨v₂, hv₂, hmove⟩ := List.mem_filterMap.mp hv'
  obtain ⟨e', v₁, hv₁, hveq⟩ := applyIdmAll_mem _ _ _ _ _ _ hv₂
  obtain ⟨v₀, hv₀, hpeq, _⟩ := applyGapAcceptance_mem dt road vs v₁ hv₁
  obtain ⟨hb0, hb1, _⟩ := hv v₀ hv₀
  have hprog2 : v₂.progress = v₀.progress := by
    rw [hveq, applyIdmVehicle_progress, hpeq]
  have hspeed2 : 0 ≤ v₂.speed := by
    rw [hveq]; exact applyIdmVehicle_speed_nonneg _ _ _ _ _
  have hlen' : ∀ s ∈ (applyGapAcceptance dt road vs).1.segments, 0 < s.length := by
    rw [applyGapAcceptance_road]; exact hlen
  obtain ⟨b0, bs, b1⟩ := moveVehicle_bounds (applyGapAcceptance dt road vs).1 dt v₂ v'
    hdt (by rw [hprog2]; exact hb0) (by rw [hprog2]; exact hb1) hspeed2 hlen' hmove
  exact ⟨b0, by rw [bs]; exact hspeed2, fun hover => b1 (hover v₂ hv₂)⟩

/-- Four collinear nodes joined by three 100 m segments; the last node is a
sink. -/
def roadC3 : Road :=
  ⟨[⟨⟨0, 0, 0⟩, [], [0], true, false, none⟩,
    ⟨⟨100, 0, 0⟩, [0], [1], false, false, none⟩,
    ⟨⟨200, 0, 0⟩, [1], [2], false, false, none⟩,
    ⟨⟨300, 0, 0⟩, [2], [], false, true, none⟩],
   [⟨0, 1, 100, SegmentGeometry.Straight, TurnType.Straight, 100⟩,
    ⟨1, 2, 100, SegmentGeometry.Straight, TurnType.Straight, 100⟩,
    ⟨2, 3, 100, SegmentGeometry.Straight, TurnType.Straight, 100⟩], []⟩

/-- A freshly spawned vehicle on `roadC3`: progress 0, speed 0, route from
the pathfinder — exactly the state `spawn_vehicles` creates. -/
def vC3 : Vehicle :=
  ⟨0, 0, 0, 3, [0, 1, 2], idmStd, ⟨5/4, none, false, none⟩, 9/2, 9/5⟩

/-- C3, counterexample: starting from the spawn state `vC3` and ticking with
host-supplied frame times `Δt = 1 s` then `Δt = 100 s`, the vehicle crosses
its segment with an excess distance longer than the next segment, and the
reachable end-of-tick state has a live vehicle with `progress > 1`. -/
theorem c3_counterexample :
    ((tick 100 (tick 1 roadC3 [vC3]).1 (tick 1 roadC3 [vC3]).2).2[0]?).map
        (fun u => decide (1 < u.progress)) = some true := by
  decide

/-- C3 witness: the amended tick theorem applied to the concrete vehicle
that survives one `Δt = 1` tick of the one-vehicle world on `roadC3`,
with the no-overshoot proviso discharged by evaluation. -/
theorem c3_tick_bounds_witness :
    0 ≤ ((tick 1 roadC3 [vC3]).2.getD 0 vC3).progress ∧
      0 ≤ ((tick 1 roadC3 [vC3]).2.getD 0 vC3).speed ∧
      ((tick 1 roadC3 [vC3]).2.getD 0 vC3).progress ≤ 1 := by
  have h := c3_tick_bounds roadC3 1 [vC3] (by decide) (by decide) (by decide)
    ((tick 1 roadC3 [vC3]).2.getD 0 vC3) (by decide)
  exact ⟨h.1, h.2.1, h.2.2 (by decide)⟩

end Red
